import Mathlib

/-!
Verification of the image_bed request-serving core: a shallow embedding of
the id allocator (src/id/generate.rs), the upload/get/head handlers
(src/http/handle.rs), and the body size limiter (src/http/size_limit.rs),
together with proofs about the spec's claims.

Strings from the source are modelled as `List Char`, byte buffers as
`List Nat` (each entry a byte value), u64 arithmetic as `Nat` with explicit
reduction modulo 2 ^ 64 where the machine operation wraps, and the i64
counter of the id allocator as `Int`.
-/

/-! ## 32-bit word helpers and the MD5 digest (the `md5` crate dependency
used by `Generator::get_id` to mint ids) -/

def mask32 (x : Nat) : Nat := x % 4294967296

def add32 (a b : Nat) : Nat := (a + b) % 4294967296

def not32 (x : Nat) : Nat := 4294967295 - x

def rotl32 (x s : Nat) : Nat := ((x <<< s) % 4294967296) ||| (x >>> (32 - s))

def md5K : List Nat :=
  [0xd76aa478, 0xe8c7b756, 0x242070db, 0xc1bdceee,
   0xf57c0faf, 0x4787c62a, 0xa8304613, 0xfd469501,
   0x698098d8, 0x8b44f7af, 0xffff5bb1, 0x895cd7be,
   0x6b901122, 0xfd987193, 0xa679438e, 0x49b40821,
   0xf61e2562, 0xc040b340, 0x265e5a51, 0xe9b6c7aa,
   0xd62f105d, 0x02441453, 0xd8a1e681, 0xe7d3fbc8,
   0x21e1cde6, 0xc33707d6, 0xf4d50d87, 0x455a14ed,
   0xa9e3e905, 0xfcefa3f8, 0x676f02d9, 0x8d2a4c8a,
   0xfffa3942, 0x8771f681, 0x6d9d6122, 0xfde5380c,
   0xa4beea44, 0x4bdecfa9, 0xf6bb4b60, 0xbebfbc70,
   0x289b7ec6, 0xeaa127fa, 0xd4ef3085, 0x04881d05,
   0xd9d4d039, 0xe6db99e5, 0x1fa27cf8, 0xc4ac5665,
   0xf4292244, 0x432aff97, 0xab9423a7, 0xfc93a039,
   0x655b59c3, 0x8f0ccc92, 0xffeff47d, 0x85845dd1,
   0x6fa87e4f, 0xfe2ce6e0, 0xa3014314, 0x4e0811a1,
   0xf7537e82, 0xbd3af235, 0x2ad7d2bb, 0xeb86d391]

def md5S : List Nat :=
  [7, 12, 17, 22, 7, 12, 17, 22, 7, 12, 17, 22, 7, 12, 17, 22,
   5, 9, 14, 20, 5, 9, 14, 20, 5, 9, 14, 20, 5, 9, 14, 20,
   4, 11, 16, 23, 4, 11, 16, 23, 4, 11, 16, 23, 4, 11, 16, 23,
   6, 10, 15, 21, 6, 10, 15, 21, 6, 10, 15, 21, 6, 10, 15, 21]

def md5F (i b c d : Nat) : Nat :=
  if i < 16 then (b &&& c) ||| (not32 b &&& d)
  else if i < 32 then (d &&& b) ||| (not32 d &&& c)
  else if i < 48 then b ^^^ c ^^^ d
  else c ^^^ (b ||| not32 d)

def md5G (i : Nat) : Nat :=
  if i < 16 then i
  else if i < 32 then (5 * i + 1) % 16
  else if i < 48 then (3 * i + 5) % 16
  else (7 * i) % 16

def md5Round (M : List Nat) (st : Nat × Nat × Nat × Nat) (i : Nat) :
    Nat × Nat × Nat × Nat :=
  let a := st.1
  let b := st.2.1
  let c := st.2.2.1
  let d := st.2.2.2
  let f := add32 (add32 (add32 (md5F i b c d) a) (md5K.getD i 0))
    (M.getD (md5G i) 0)
  (d, add32 b (rotl32 f (md5S.getD i 0)), b, c)

def leBytes32 (n : Nat) : List Nat :=
  [n % 256, n / 256 % 256, n / 65536 % 256, n / 16777216 % 256]

def leBytes64 (n : Nat) : List Nat :=
  [n % 256, n / 2 ^ 8 % 256, n / 2 ^ 16 % 256, n / 2 ^ 24 % 256,
   n / 2 ^ 32 % 256, n / 2 ^ 40 % 256, n / 2 ^ 48 % 256, n / 2 ^ 56 % 256]

/-- MD5 padding for messages of at most 55 bytes (a single 64-byte block);
the allocator only ever hashes 8-byte messages. -/
def md5Pad (msg : List Nat) : List Nat :=
  msg ++ [0x80] ++ List.replicate (55 - msg.length) 0 ++ leBytes64 (8 * msg.length)

def leWords (block : List Nat) : List Nat :=
  (List.range 16).map (fun j =>
    block.getD (4 * j) 0 + 256 * block.getD (4 * j + 1) 0 +
      65536 * block.getD (4 * j + 2) 0 + 16777216 * block.getD (4 * j + 3) 0)

/-- MD5 digest (16 output bytes) of a message of at most 55 bytes. -/
def md5Digest (msg : List Nat) : List Nat :=
  let M := leWords (md5Pad msg)
  let st := (List.range 64).foldl (md5Round M) (0x67452301, 0xefcdab89, 0x98badcfe, 0x10325476)
  leBytes32 (add32 0x67452301 st.1) ++ leBytes32 (add32 0xefcdab89 st.2.1) ++
    leBytes32 (add32 0x98badcfe st.2.2.1) ++ leBytes32 (add32 0x10325476 st.2.2.2)

def hexDigitChar (n : Nat) : Char :=
  if n < 10 then Char.ofNat (48 + n) else Char.ofNat (87 + n)

def bytesToHex (bs : List Nat) : List Char :=
  bs.foldr (fun b acc => hexDigitChar (b / 16) :: hexDigitChar (b % 16) :: acc) []

/-! ## IdAllocator (`Generator` in src/id/generate.rs) -/

/-- Big-endian byte serialization of an i64 (`i64::to_be_bytes`). -/
def beBytes64 (i : Int) : List Nat :=
  let m := (i % 18446744073709551616).toNat
  [m / 2 ^ 56 % 256, m / 2 ^ 48 % 256, m / 2 ^ 40 % 256, m / 2 ^ 32 % 256,
   m / 2 ^ 24 % 256, m / 2 ^ 16 % 256, m / 2 ^ 8 % 256, m % 256]

/-- One minted id: the first 10 hex characters of the MD5 digest of the
integer's big-endian byte representation. -/
def idFromInt (i : Int) : List Char :=
  (bytesToHex (md5Digest (beBytes64 i))).take 10

/-- The batch of ids minted for the integers `startId, startId+1, ...`
(`count` of them, in ascending order), as pushed onto `id_list` by the
refill loop `(start_id..=max_id).for_each`. -/
def idBatch (startId : Int) : Nat → List (List Char)
  | 0 => []
  | n + 1 => idFromInt startId :: idBatch (startId + 1) n

/-- The state of `InnerGenerator`: the shared counter row of the
`id_generate` table (held in the metadata store by the real code), the
local queue of pre-minted ids, and the batch step. -/
structure InnerGenerator where
  counter : Int
  id_list : List (List Char)
  step : Nat
deriving DecidableEq, Repr

/-- Events observable at the metadata-store / blob-store boundary. -/
inductive Event where
  | dbLookupHash (h : List Char)
  | dbLookupId (i : List Char)
  | counterIncr (step : Nat)
  | dbInsert (id bucket : List Char) (createTime : Nat) (hash : List Char) (size : Nat)
  | dbDelete (ids : List (List Char))
  | blobPut (bucket id : List Char) (data : List Nat)
  | blobGet (bucket id : List Char) (s e : Option Nat)
deriving DecidableEq, Repr

/-- `Generator::get_id`: pop the front of the queue if non-empty;
otherwise increment the shared counter by `step` (one metadata-store
round trip, yielding the new value `max_id`), mint ids for
`[max_id - step + 1, max_id]` in ascending order, and pop the front.
The returned event list records the counter increments performed. -/
def get_id (g : InnerGenerator) : List Char × InnerGenerator × List Event :=
  match g.id_list with
  | i :: rest => (i, { g with id_list := rest }, [])
  | [] =>
    let maxId : Int := g.counter + g.step
    let startId : Int := maxId - g.step + 1
    match idBatch startId g.step with
    | [] => ([], { g with counter := maxId, id_list := [] }, [Event.counterIncr g.step])
    | i :: rest =>
      (i, { g with counter := maxId, id_list := rest }, [Event.counterIncr g.step])

/-- `n` consecutive `get_id` calls, returning the ids in call order, the
final generator state, and the concatenated event trace. -/
def get_ids (g : InnerGenerator) : Nat → List (List Char) × InnerGenerator × List Event
  | 0 => ([], g, [])
  | n + 1 =>
    let r1 := get_id g
    let r2 := get_ids r1.2.1 n
    (r1.1 :: r2.1, r2.2.1, r1.2.2 ++ r2.2.2)

/-! ## Data model (`Resource` in src/db/mod.rs) and metadata-store ops -/

/-- The durable metadata row for one stored blob. The `hash` column exists
in the table (`insert_resource` binds it) even though the Rust struct does
not map it back; the model keeps it queryable, as the dedup lookup needs it. -/
structure Resource where
  id : List Char
  bucket : List Char
  create_time : Nat
  hash : List Char
  resource_size : Nat
deriving DecidableEq, Repr

/-- `Database::get_resource_by_hash`: `select * from resources where
hash=$1 limit 1`, modelled as the first row (in insertion order) whose
hash matches; no row is the non-exceptional `None` outcome. -/
def get_resource_by_hash (db : List Resource) (h : List Char) : Option Resource :=
  db.find? (fun r => r.hash == h)

/-- `Database::get_resource_by_id`: `select * from resources where id=$1`. -/
def get_resource_by_id (db : List Resource) (i : List Char) : Option Resource :=
  db.find? (fun r => r.id == i)

/-- The state shared by the handlers: the `resources` table, the id
generator, and the blob store contents keyed by `(bucket, id)`. -/
structure SysState where
  db : List Resource
  gen : InnerGenerator
  blobs : List ((List Char × List Char) × List Nat)
deriving DecidableEq, Repr

/-! ## UploadHandler (`Handle::handle_upload` in src/http/handle.rs) -/

/-- `Handle::handle_upload`, after the body has been materialized. The
SHA-256 hex digest (an external crate) is abstracted as `hashFn`; the
bucket label (`Local::today().format`) and `create_time` come in as the
`bucket` and `now` parameters; `putOk` is the outcome of the blob-store
write. Returns the retrieval id (`none` on blob-write failure), the state
after all committed effects, and the event trace in execution order. -/
def handle_upload (hashFn : List Nat → List Char) (bucket : List Char) (now : Nat)
    (putOk : Bool) (st : SysState) (body : List Nat) :
    Option (List Char) × SysState × List Event :=
  let h := hashFn body
  match get_resource_by_hash st.db h with
  | some r => (some r.id, st, [Event.dbLookupHash h])
  | none =>
    let g := get_id st.gen
    let rid := g.1
    let r : Resource :=
      { id := rid, bucket := bucket, create_time := now, hash := h,
        resource_size := body.length }
    let evs := Event.dbLookupHash h :: g.2.2 ++
      [Event.dbInsert rid bucket now h body.length, Event.blobPut bucket rid body]
    if putOk then
      (some rid,
       { db := st.db ++ [r], gen := g.2.1, blobs := st.blobs ++ [((bucket, rid), body)] },
       evs)
    else
      (none, { db := st.db ++ [r], gen := g.2.1, blobs := st.blobs }, evs)

/-! ## Range header parsing (duplicated verbatim in `handle_get` and
`handle_head`; modelled once) -/

/-- `range.starts_with("bytes=")`. -/
def startsWithBytesEq (l : List Char) : Bool :=
  match l with
  | 'b' :: 'y' :: 't' :: 'e' :: 's' :: '=' :: _ => true
  | _ => false

/-- `range.replace("bytes=", "")`: delete every (non-overlapping,
left-to-right) occurrence of `bytes=`. -/
def removeBytesEq : List Char → List Char
  | [] => []
  | 'b' :: 'y' :: 't' :: 'e' :: 's' :: '=' :: rest => removeBytesEq rest
  | c :: rest => c :: removeBytesEq rest

/-- `str::split('-')` collected into a list: every occurrence of `-`
separates parts, empty parts preserved. -/
def splitDash : List Char → List (List Char)
  | [] => [[]]
  | '-' :: rest => [] :: splitDash rest
  | c :: rest =>
    match splitDash rest with
    | [] => [[c]]
    | p :: ps => (c :: p) :: ps

/-- `str::parse::<u64>`: an optional leading `+`, then one or more ASCII
digits, value at most `2 ^ 64 - 1`; anything else fails. -/
def parseU64 (l : List Char) : Option Nat :=
  let l' := match l with
    | '+' :: rest => rest
    | other => other
  match l' with
  | [] => none
  | _ =>
    if l'.all (fun c => c.isDigit) then
      let v := l'.foldl (fun acc c => acc * 10 + (c.toNat - 48)) 0
      if v < 18446744073709551616 then some v else none
    else none

/-- The Range header normalization of `handle_get` / `handle_head`:
absent header, non-`bytes=` header, or a split yielding other than two
parts give `(none, none)`; otherwise each side parses independently. -/
def parse_range (header : Option (List Char)) : Option Nat × Option Nat :=
  match header with
  | none => (none, none)
  | some range =>
    if startsWithBytesEq range then
      match splitDash (removeBytesEq range) with
      | [a, b] => (parseU64 a, parseU64 b)
      | _ => (none, none)
    else (none, none)

/-- Modelled from the claim's words for C7 ("the remainder is split once
on `-`"): the remainder after the literal `bytes=` prefix, split at the
first `-` only, each side parsed independently. -/
def parse_range_split_once (header : List Char) : Option Nat × Option Nat :=
  match header with
  | 'b' :: 'y' :: 't' :: 'e' :: 's' :: '=' :: rest =>
    match splitDash rest with
    | [_] => (none, none)
    | a :: more => (parseU64 a, parseU64 (List.intercalate ['-'] more))
    | [] => (none, none)
  | _ => (none, none)

/-! ## Path handling and u64 wrap-around arithmetic -/

/-- `req.uri().path().replace(GET_PATH, "")` with `GET_PATH = "/get"`:
delete every occurrence of `/get`, left to right. -/
def removeGet : List Char → List Char
  | [] => []
  | '/' :: 'g' :: 'e' :: 't' :: rest => removeGet rest
  | c :: rest => c :: removeGet rest

/-- Whether `/get` occurs as a substring. -/
def containsGet : List Char → Bool
  | [] => false
  | '/' :: 'g' :: 'e' :: 't' :: _ => true
  | _ :: rest => containsGet rest

/-- The resource identifier used for the lookup:
`path.replace("/get", "")` then `strip_prefix('/').unwrap_or(..)`. -/
def extract_resource_id (path : List Char) : List Char :=
  match removeGet path with
  | '/' :: rest => rest
  | other => other

/-- Modelled from the claim's words for C9: the remainder of the path
after removing the `/get` prefix (once, at the front) and one leading `/`. -/
def extract_resource_id_claim (path : List Char) : List Char :=
  let p := match path with
    | '/' :: 'g' :: 'e' :: 't' :: rest => rest
    | other => other
  match p with
  | '/' :: rest => rest
  | other => other

/-- Wrapping u64 subtraction: `a - b` as computed on `u64` values. -/
def sub64 (a b : Nat) : Nat := (a + 18446744073709551616 - b) % 18446744073709551616

/-- Wrapping u64 addition. -/
def add64 (a b : Nat) : Nat := (a + b) % 18446744073709551616

/-! ## GetHandler / HeadHandler -/

/-- The observable parts of a handler response: HTTP status, the
`(start, end, total)` triple of a `content-range` header when one is
emitted, the `content-length` header when one is emitted, and the body. -/
structure HttpResponse where
  status : Nat
  contentRange : Option (Nat × Nat × Nat)
  contentLength : Option Nat
  body : List Nat
deriving DecidableEq, Repr

/-- `Handle::handle_get`. The blob store is the external collaborator
`blob`, mapping `(bucket, id, start, end)` to the bytes it yields. -/
def handle_get (st : SysState)
    (blob : List Char → List Char → Option Nat → Option Nat → List Nat)
    (path : List Char) (rangeHeader : Option (List Char)) :
    HttpResponse × List Event :=
  let resource_id := extract_resource_id path
  match get_resource_by_id st.db resource_id with
  | none =>
    ({ status := 404, contentRange := none, contentLength := none, body := [] },
     [Event.dbLookupId resource_id])
  | some r =>
    let se := parse_range rangeHeader
    let s := se.1
    let e := se.2
    let status := if s.isSome || e.isSome then 206 else 200
    let data := blob r.bucket r.id s e
    let cr :=
      if status == 206 then
        let s0 := s.getD 0
        let e0 := match e with
          | some v => v
          | none => sub64 (sub64 data.length s0) 1
        some (s0, e0, r.resource_size)
      else none
    ({ status := status, contentRange := cr, contentLength := none, body := data },
     [Event.dbLookupId resource_id, Event.blobGet r.bucket r.id s e])

/-- The `(effectiveStart, effectiveEnd, contentLength)` clamping of
`handle_head`, exactly as the source's `match (start, end)` computes it
(`S` is the resource's stored size; u64 arithmetic wraps). -/
def head_clamp (s e : Option Nat) (S : Nat) : Option Nat × Option Nat × Nat :=
  match s, e with
  | some s, some e =>
    if s ≤ S ∧ e ≤ S then (some s, some e, add64 (sub64 e s) 1)
    else if s > S then (some S, some S, 0)
    else (some s, some S, add64 (sub64 S s) 1)
  | some s, none =>
    if s ≤ S then (some s, none, add64 (sub64 S s) 1)
    else (some S, none, 0)
  | none, some e =>
    if e ≤ S then (some 0, some e, add64 e 1)
    else (some 0, some S, S)
  | none, none => (none, none, S)

/-- Modelled from the spec's clamping table for C2, row by row in the
order the table lists them (arithmetic on u64 values). -/
def head_clamp_table (s e : Option Nat) (S : Nat) : Option Nat × Option Nat × Nat :=
  match s, e with
  | some s, some e =>
    if s ≤ S ∧ e ≤ S then (some s, some e, add64 (sub64 e s) 1)
    else if s > S then (some S, some S, 0)
    else if s ≤ S ∧ S < e then (some s, some S, add64 (sub64 S s) 1)
    else (none, none, S)
  | some s, none =>
    if s ≤ S then (some s, none, add64 (sub64 S s) 1)
    else (some S, none, 0)
  | none, some e =>
    if e ≤ S then (some 0, some e, add64 e 1)
    else (some 0, some S, S)
  | none, none => (none, none, S)

/-- Whether the subtraction performed on the branch `head_clamp` takes
underflows (subtrahend exceeds minuend), recorded per subtraction site. -/
def head_clamp_underflows (s e : Option Nat) (S : Nat) : Bool :=
  match s, e with
  | some s, some e =>
    if s ≤ S ∧ e ≤ S then decide (e < s)
    else if s > S then false
    else decide (S < s)
  | some s, none => if s ≤ S then decide (S < s) else false
  | none, some _ => false
  | none, none => false

/-- `Handle::handle_head`: same lookup and range normalization as
`handle_get`, then the pure clamp; the blob store is never consulted. -/
def handle_head (st : SysState) (path : List Char)
    (rangeHeader : Option (List Char)) : HttpResponse × List Event :=
  let resource_id := extract_resource_id path
  match get_resource_by_id st.db resource_id with
  | none =>
    ({ status := 404, contentRange := none, contentLength := none, body := [] },
     [Event.dbLookupId resource_id])
  | some r =>
    let se := parse_range rangeHeader
    let s := se.1
    let e := se.2
    let status := if s.isSome || e.isSome then 206 else 200
    let clamped := head_clamp s e r.resource_size
    let total := clamped.2.2
    let hdrs :=
      if status == 206 then
        (some (clamped.1.getD 0, clamped.2.1.getD total, total), some total)
      else (none, none)
    ({ status := status, contentRange := hdrs.1, contentLength := hdrs.2, body := [] },
     [Event.dbLookupId resource_id])

/-- Blob-store events, for stating that a handler never touches the
blob store. -/
def isBlobEvent : Event → Bool
  | Event.blobPut _ _ _ => true
  | Event.blobGet _ _ _ _ => true
  | _ => false

/-- Metadata-row deletions, for stating that no compensating rollback
happens. -/
def isDeleteEvent : Event → Bool
  | Event.dbDelete _ => true
  | _ => false

/-! ## BodyGuard (`SizeLimitService` in src/http/size_limit.rs) -/

/-- The 413 response built when the accumulated body exceeds the limit. -/
def resp413 : HttpResponse :=
  { status := 413, contentRange := none, contentLength := none, body := [] }

/-- The streaming loop of `SizeLimitService::call`: consume body chunks
one at a time into `buf`; as soon as the accumulated length exceeds
`max_size`, stop reading and answer 413 without calling the inner
service; once the stream ends, hand the materialized buffer to `inner`. -/
def size_limit_go (max_size : Nat) (inner : List Nat → HttpResponse × List Event) :
    List (List Nat) → List Nat → HttpResponse × List Event
  | [], buf => inner buf
  | c :: rest, buf =>
    let buf' := buf ++ c
    if buf'.length > max_size then (resp413, [])
    else size_limit_go max_size inner rest buf'

/-- `SizeLimitService::call` on a request whose body arrives as `chunks`. -/
def size_limit_call (max_size : Nat) (inner : List Nat → HttpResponse × List Event)
    (chunks : List (List Nat)) : HttpResponse × List Event :=
  size_limit_go max_size inner chunks []

/-- A trivial inner service used to instantiate witnesses: echoes the
materialized body with status 200 and no storage effects. -/
def innerEcho (b : List Nat) : HttpResponse × List Event :=
  ({ status := 200, contentRange := none, contentLength := none, body := b }, [])

/-! ## Helper lemmas -/

theorem idBatch_length (n : Nat) : ∀ startId : Int, (idBatch startId n).length = n := by
  induction n with
  | zero => intro s; rfl
  | succ m ih => intro s; simp [idBatch, ih]

theorem idBatch_eq_map (n : Nat) :
    ∀ startId : Int,
      idBatch startId n = (List.range n).map (fun k : Nat => idFromInt (startId + (k : Int))) := by
  induction n with
  | zero => intro s; rfl
  | succ m ih =>
    intro s
    rw [List.range_succ_eq_map, List.map_cons, List.map_map]
    rw [idBatch, ih (s + 1)]
    simp only [List.cons.injEq, Nat.cast_zero, add_zero, Function.comp_apply, eq_self_iff_true,
      true_and]
    apply List.map_congr_left
    intro k _
    simp only [Function.comp_apply]
    push_cast
    have h3 : s + 1 + (k : Int) = s + ((k : Int) + 1) := by ring
    rw [h3]

theorem get_ids_pop (q : List (List Char)) :
    ∀ g : InnerGenerator, g.id_list = q →
      get_ids g q.length = (q, { g with id_list := [] }, []) := by
  induction q with
  | nil =>
    intro g hg
    cases g
    simp only at hg
    subst hg
    rfl
  | cons i rest ih =>
    intro g hg
    have h1 : get_id g = (i, { g with id_list := rest }, []) := by
      cases g
      simp only at hg
      subst hg
      rfl
    show get_ids g (rest.length + 1) = _
    simp only [get_ids, h1]
    rw [ih { g with id_list := rest } rfl]
    rfl

theorem get_id_refill (c : Int) (m : Nat) :
    get_id { counter := c, id_list := [], step := m + 1 } =
      (idFromInt (c + 1),
       { counter := c + (m + 1 : Nat), id_list := idBatch (c + 2) m, step := m + 1 },
       [Event.counterIncr (m + 1)]) := by
  have h1 : c + ((m + 1 : Nat) : Int) - ((m + 1 : Nat) : Int) + 1 = c + 1 := by push_cast; ring
  show (match idBatch (c + ((m + 1 : Nat) : Int) - ((m + 1 : Nat) : Int) + 1) (m + 1) with
    | [] => (([] : List Char),
        ({ counter := c + ((m + 1 : Nat) : Int), id_list := [], step := m + 1 } : InnerGenerator),
        [Event.counterIncr (m + 1)])
    | i :: rest =>
      (i, { counter := c + ((m + 1 : Nat) : Int), id_list := rest, step := m + 1 },
        [Event.counterIncr (m + 1)])) = _
  rw [h1]
  show (idFromInt (c + 1),
      ({ counter := c + ((m + 1 : Nat) : Int), id_list := idBatch (c + 1 + 1) m,
         step := m + 1 } : InnerGenerator),
      [Event.counterIncr (m + 1)]) = _
  have h2 : c + 1 + 1 = c + 2 := by ring
  rw [h2]

theorem idBatch_succ_two (c : Int) (m : Nat) :
    idBatch (c + 1) (m + 1) = idFromInt (c + 1) :: idBatch (c + 2) m := by
  rw [idBatch]
  have h : c + 1 + 1 = c + 2 := by ring
  rw [h]

theorem find_append_none {α : Type} (p : α → Bool) (l : List α) (x : α)
    (hl : l.find? p = none) (hx : p x = true) : (l ++ [x]).find? p = some x := by
  induction l with
  | nil => simp [List.find?, hx]
  | cons a rest ih =>
    cases hpa : p a with
    | true => simp [List.find?, hpa] at hl
    | false =>
      simp only [List.find?, hpa, List.cons_append] at hl ⊢
      exact ih hl

/-! ## The claims -/

set_option maxRecDepth 1000000 in
/-- Claim C1 (amended): whenever `get_id` finds the local queue empty it
performs exactly one counter increment of the fixed step `N` receiving
the new value `max`, computes `start = max - N + 1`, and appends, for
each integer `i` in `[start, max]` in ascending order, the id obtained
by hashing `i`'s big-endian bytes with MD5 and taking the first 10 hex
characters; starting from an empty queue, `N` consecutive `get_id` calls
trigger exactly one increment of size `N`, and the returned ids are the
deterministic batch for the counter range. The batch's ids are not
pairwise distinct for every counter range (see the counterexample on the
batch starting at 1350598306904); distinctness does hold for typical
batches and is verified here on the concrete first batch `[1, 10]`. -/
theorem c1_id_allocator_refill :
    (∀ (c : Int) (n : Nat), 1 ≤ n →
      get_ids { counter := c, id_list := [], step := n } n =
        (idBatch (c + 1) n, { counter := c + (n : Nat), id_list := [], step := n },
          [Event.counterIncr n]) ∧
      get_id { counter := c, id_list := [], step := n } =
        (idFromInt (c + 1),
          { counter := c + (n : Nat), id_list := idBatch (c + 2) (n - 1), step := n },
          [Event.counterIncr n]) ∧
      idBatch (c + 1) n = (List.range n).map (fun k : Nat => idFromInt (c + 1 + (k : Int)))) ∧
    (idBatch 1 10).Nodup := by
  constructor
  · intro c n hn
    obtain ⟨m, rfl⟩ : ∃ m, n = m + 1 := ⟨n - 1, by omega⟩
    have hpop : get_ids
        { counter := c + ((m + 1 : Nat) : Int), id_list := idBatch (c + 2) m, step := m + 1 } m =
        (idBatch (c + 2) m,
         { counter := c + ((m + 1 : Nat) : Int), id_list := [], step := m + 1 }, []) := by
      have h := get_ids_pop (idBatch (c + 2) m)
        { counter := c + ((m + 1 : Nat) : Int), id_list := idBatch (c + 2) m, step := m + 1 } rfl
      rwa [idBatch_length] at h
    refine ⟨?_, ?_, ?_⟩
    · show get_ids _ (m + 1) = _
      simp only [get_ids, get_id_refill, hpop]
      rw [idBatch_succ_two]
      simp only [List.append_nil]
    · have h := get_id_refill c m
      simpa using h
    · exact idBatch_eq_map (m + 1) (c + 1)
  · decide

set_option maxRecDepth 1000000 in
/-- Counterexample to C1 as stated: the ids are 40-bit (10 hex char)
truncations of MD5 digests, and the batch for the counter range starting
at 1350598306904 (counter value 1350598306903, step 10) contains the
distinct integers 1350598306904 and 1350598306911 whose truncated
digests coincide at `ab72b1c3a5`, so that batch's 10 ids are not
pairwise distinct. -/
theorem c1_distinctness_counterexample :
    idFromInt 1350598306904 = idFromInt 1350598306911 ∧
    idFromInt 1350598306904 = ['a', 'b', '7', '2', 'b', '1', 'c', '3', 'a', '5'] ∧
    (1350598306904 : Int) ≠ 1350598306911 ∧
    ¬ (idBatch 1350598306904 10).Nodup := by
  refine ⟨by decide, by decide, by decide, by decide⟩

/-- Witness for C1 at step 10 from counter value 0. -/
theorem c1_id_allocator_refill_witness :
    1 ≤ 10 ∧
      get_ids { counter := 0, id_list := [], step := 10 } 10 =
        (idBatch (0 + 1) 10, { counter := 0 + (10 : Nat), id_list := [], step := 10 },
          [Event.counterIncr 10]) :=
  ⟨by decide, (c1_id_allocator_refill.1 0 10 (by decide)).1⟩

theorem get_id_trace (g : InnerGenerator) :
    (get_id g).2.2 = [] ∨ (get_id g).2.2 = [Event.counterIncr g.step] := by
  cases hq : g.id_list with
  | cons i rest => exact Or.inl (by simp [get_id, hq])
  | nil =>
    right
    simp only [get_id, hq]
    cases hb : idBatch (g.counter + (g.step : Int) - (g.step : Int) + 1) g.step <;> simp

/-- Claim C3: uploading the same byte slice twice is idempotent — the
second upload's dedup lookup finds the Resource created (or reused) by
the first upload, returns the same retrieval id, leaves the whole system
state unchanged, and performs no counter increment, no metadata insert
and no blob write (its entire trace is the one dedup lookup). -/
theorem c3_upload_dedup_idempotent (hashFn : List Nat → List Char)
    (bucket1 bucket2 : List Char) (now1 now2 : Nat) (st : SysState)
    (b1 b2 : List Nat) (i : List Char) (hb : b1 = b2)
    (h1 : (handle_upload hashFn bucket1 now1 true st b1).1 = some i) :
    (handle_upload hashFn bucket2 now2 true
        (handle_upload hashFn bucket1 now1 true st b1).2.1 b2).1 = some i ∧
    (handle_upload hashFn bucket2 now2 true
        (handle_upload hashFn bucket1 now1 true st b1).2.1 b2).2.1 =
      (handle_upload hashFn bucket1 now1 true st b1).2.1 ∧
    (handle_upload hashFn bucket2 now2 true
        (handle_upload hashFn bucket1 now1 true st b1).2.1 b2).2.2 =
      [Event.dbLookupHash (hashFn b2)] := by
  subst hb
  cases hfind : get_resource_by_hash st.db (hashFn b1) with
  | some r =>
    simp only [handle_upload, hfind] at h1 ⊢
    exact ⟨h1, by trivial, by trivial⟩
  | none =>
    simp only [handle_upload, hfind, if_true] at h1 ⊢
    have hfind2 : get_resource_by_hash
        (st.db ++
          [Resource.mk (get_id st.gen).1 bucket1 now1 (hashFn b1) b1.length]) (hashFn b1) =
        some (Resource.mk (get_id st.gen).1 bucket1 now1 (hashFn b1) b1.length) := by
      unfold get_resource_by_hash at hfind ⊢
      exact find_append_none _ _ _ hfind (by simp)
    simp only [hfind2]
    exact ⟨h1, by trivial, by trivial⟩

/-- Witness for C3: uploading the bytes `[1, 2]` twice into an initially
empty store returns the pre-minted id both times, with no effects on the
second call. -/
theorem c3_upload_dedup_idempotent_witness :
    ((handle_upload (fun _ => ['h']) ['B'] 5 true
        { db := [], gen := { counter := 0, id_list := [['x']], step := 10 }, blobs := [] }
        [1, 2]).1 = some ['x']) ∧
    (handle_upload (fun _ => ['h']) ['C'] 9 true
        (handle_upload (fun _ => ['h']) ['B'] 5 true
          { db := [], gen := { counter := 0, id_list := [['x']], step := 10 }, blobs := [] }
          [1, 2]).2.1 [1, 2]).1 = some ['x'] :=
  ⟨by decide,
   (c3_upload_dedup_idempotent (fun _ => ['h']) ['B'] ['C'] 5 9
      { db := [], gen := { counter := 0, id_list := [['x']], step := 10 }, blobs := [] }
      [1, 2] [1, 2] ['x'] rfl (by decide)).1⟩

/-- Claim C8: on the creation path of a single upload (dedup lookup finds
nothing), the trace is exactly lookup, then any allocator counter
increment, then the metadata insert, then the blob write — so the lookup
completes before id allocation and the insert completes before the blob
write — the metadata row is committed whether or not the blob write
succeeds, and no compensating deletion ever appears in the trace. -/
theorem c8_upload_step_order (hashFn : List Nat → List Char) (bucket : List Char)
    (now : Nat) (putOk : Bool) (st : SysState) (b : List Nat)
    (hnf : get_resource_by_hash st.db (hashFn b) = none) :
    (handle_upload hashFn bucket now putOk st b).2.2 =
      Event.dbLookupHash (hashFn b) :: (get_id st.gen).2.2 ++
        [Event.dbInsert (get_id st.gen).1 bucket now (hashFn b) b.length,
         Event.blobPut bucket (get_id st.gen).1 b] ∧
    (handle_upload hashFn bucket now putOk st b).2.1.db =
      st.db ++ [Resource.mk (get_id st.gen).1 bucket now (hashFn b) b.length] ∧
    ((handle_upload hashFn bucket now putOk st b).2.2.all fun ev => !isDeleteEvent ev) = true := by
  rcases get_id_trace st.gen with h | h <;>
    cases putOk <;>
      simp [handle_upload, hnf, isDeleteEvent, h]

/-- Witness for C8 with a concrete empty store and a pre-minted id. -/
theorem c8_upload_step_order_witness :
    get_resource_by_hash ([] : List Resource) ['h'] = none ∧
    (handle_upload (fun _ => ['h']) ['B'] 5 false
        { db := [], gen := { counter := 0, id_list := [['x']], step := 10 }, blobs := [] }
        [1, 2]).2.2 =
      Event.dbLookupHash ['h'] ::
        (get_id { counter := 0, id_list := [['x']], step := 10 }).2.2 ++
        [Event.dbInsert (get_id { counter := 0, id_list := [['x']], step := 10 }).1 ['B'] 5 ['h'] 2,
         Event.blobPut ['B'] (get_id { counter := 0, id_list := [['x']], step := 10 }).1 [1, 2]] :=
  ⟨by decide,
   ((c8_upload_step_order (fun _ => ['h']) ['B'] 5 false
      { db := [], gen := { counter := 0, id_list := [['x']], step := 10 }, blobs := [] }
      [1, 2] (by decide)).1)⟩

theorem removeGet_eq_self (l : List Char) (h : containsGet l = false) : removeGet l = l := by
  induction l using removeGet.induct with
  | case1 => rfl
  | case2 rest ih => simp [containsGet] at h
  | case3 c rest hne ih =>
    rw [containsGet] at h
    case x_1 => exact hne
    rw [removeGet]
    case x_1 => exact hne
    rw [ih h]

theorem size_limit_go_spec (max_size : Nat) (inner : List Nat → HttpResponse × List Event)
    (chunks : List (List Nat)) :
    ∀ buf : List Nat, buf.length ≤ max_size →
      (buf.length + chunks.flatten.length > max_size →
        size_limit_go max_size inner chunks buf = (resp413, [])) ∧
      (buf.length + chunks.flatten.length ≤ max_size →
        size_limit_go max_size inner chunks buf = inner (buf ++ chunks.flatten)) := by
  induction chunks with
  | nil =>
    intro buf hb
    refine ⟨fun hgt => ?_, fun _ => ?_⟩
    · simp only [List.flatten_nil, List.length_nil] at hgt
      omega
    · simp [size_limit_go]
  | cons c rest ih =>
    intro buf hb
    have hlen : (buf ++ c).length = buf.length + c.length := List.length_append buf c
    by_cases hc : (buf ++ c).length > max_size
    · refine ⟨fun _ => ?_, fun hle => ?_⟩
      · simp only [size_limit_go]
        rw [if_pos hc]
      · simp only [List.flatten_cons, List.length_append] at hle
        omega
    · push_neg at hc
      have hih := ih (buf ++ c) hc
      refine ⟨fun hgt => ?_, fun hle => ?_⟩
      · simp only [size_limit_go]
        rw [if_neg (by omega)]
        refine hih.1 ?_
        simp only [List.flatten_cons, List.length_append] at hgt
        omega
      · simp only [size_limit_go]
        rw [if_neg (by omega)]
        rw [hih.2 (by
          simp only [List.flatten_cons, List.length_append] at hle
          omega)]
        rw [List.flatten_cons, List.append_assoc]

/-- Claim C4: if the accumulated body exceeds the configured limit at any
point of the stream (equivalently, the total body length exceeds it), the
size limiter stops and answers 413 without the inner handler running —
hence no metadata-store or blob-store effects; if the whole body fits,
the inner handler runs on exactly the materialized original bytes. -/
theorem c4_body_guard (max_size : Nat) (inner : List Nat → HttpResponse × List Event)
    (chunks : List (List Nat)) :
    (chunks.flatten.length > max_size →
      size_limit_call max_size inner chunks = (resp413, [])) ∧
    (chunks.flatten.length ≤ max_size →
      size_limit_call max_size inner chunks = inner chunks.flatten) := by
  have h := size_limit_go_spec max_size inner chunks [] (by simp)
  simpa [size_limit_call] using h

/-- Witness for C4: a 3-byte body against limit 2 is rejected with no
inner-handler effects; a 3-byte body against limit 9 reaches the inner
handler materialized. -/
theorem c4_body_guard_witness :
    ([[1, 2, 3]] : List (List Nat)).flatten.length > 2 ∧
    size_limit_call 2 innerEcho [[1, 2, 3]] = (resp413, []) ∧
    ([[1, 2], [3]] : List (List Nat)).flatten.length ≤ 9 ∧
    size_limit_call 9 innerEcho [[1, 2], [3]] = innerEcho [1, 2, 3] :=
  ⟨by decide, (c4_body_guard 2 innerEcho [[1, 2, 3]]).1 (by decide),
   by decide, (c4_body_guard 9 innerEcho [[1, 2], [3]]).2 (by decide)⟩

/-- Counterexample to C7 as stated: on `bytes=1-2-3` the source's
split-on-every-dash parsing yields a fully absent range, while the
claim's split-once parsing would yield `(some 1, none)`. -/
theorem c7_counterexample :
    parse_range (some ['b', 'y', 't', 'e', 's', '=', '1', '-', '2', '-', '3']) = (none, none) ∧
    parse_range_split_once ['b', 'y', 't', 'e', 's', '=', '1', '-', '2', '-', '3'] =
      (some 1, none) ∧
    parse_range (some ['b', 'y', 't', 'e', 's', '=', '1', '-', '2', '-', '3']) ≠
      parse_range_split_once ['b', 'y', 't', 'e', 's', '=', '1', '-', '2', '-', '3'] := by
  refine ⟨by decide, by decide, by decide⟩

/-- Claim C7 (amended): a header not starting with `bytes=` is fully
absent; otherwise every occurrence of `bytes=` is deleted and the rest is
split on every `-`; unless exactly two parts result the range is fully
absent; otherwise each part parses independently as u64 with failure
giving that side as absent; and a fully absent range falls back to
status 200 (full content) in both GET and HEAD rather than an error. -/
theorem c7_range_normalization :
    (∀ s, startsWithBytesEq s = false → parse_range (some s) = (none, none)) ∧
    (∀ s a b, startsWithBytesEq s = true → splitDash (removeBytesEq s) = [a, b] →
      parse_range (some s) = (parseU64 a, parseU64 b)) ∧
    (∀ s parts, startsWithBytesEq s = true → splitDash (removeBytesEq s) = parts →
      parts.length ≠ 2 → parse_range (some s) = (none, none)) ∧
    parse_range none = (none, none) ∧
    (∀ st blob path hdr r,
      get_resource_by_id st.db (extract_resource_id path) = some r →
      parse_range hdr = (none, none) →
      (handle_get st blob path hdr).1.status = 200 ∧
        (handle_head st path hdr).1.status = 200) := by
  refine ⟨?_, ?_, ?_, rfl, ?_⟩
  · intro s hs
    simp [parse_range, hs]
  · intro s a b hs hsplit
    simp [parse_range, hs, hsplit]
  · intro s parts hs hsplit hlen
    subst hsplit
    rcases hp : splitDash (removeBytesEq s) with _ | ⟨a, _ | ⟨b, _ | _⟩⟩ <;>
      simp_all [parse_range, hs, hp]
  · intro st blob path hdr r hlook hparse
    constructor
    · simp [handle_get, hlook, hparse]
    · simp [handle_head, hlook, hparse]

/-- Witness for C7 (amended) on the header `bytes=0-5`. -/
theorem c7_range_normalization_witness :
    startsWithBytesEq ['b', 'y', 't', 'e', 's', '=', '0', '-', '5'] = true ∧
    splitDash (removeBytesEq ['b', 'y', 't', 'e', 's', '=', '0', '-', '5']) = [['0'], ['5']] ∧
    parse_range (some ['b', 'y', 't', 'e', 's', '=', '0', '-', '5']) =
      (parseU64 ['0'], parseU64 ['5']) :=
  ⟨by decide, by decide,
   c7_range_normalization.2.1 ['b', 'y', 't', 'e', 's', '=', '0', '-', '5'] ['0'] ['5']
     (by decide) (by decide)⟩

/-- Counterexample to C9 as stated: on the path `/get/a/getb` the source
deletes every occurrence of `/get` and looks up the id `ab`, whereas the
claim's prefix-stripping description yields `a/getb`. -/
theorem c9_counterexample :
    extract_resource_id ['/', 'g', 'e', 't', '/', 'a', '/', 'g', 'e', 't', 'b'] = ['a', 'b'] ∧
    extract_resource_id_claim ['/', 'g', 'e', 't', '/', 'a', '/', 'g', 'e', 't', 'b'] =
      ['a', '/', 'g', 'e', 't', 'b'] ∧
    (['a', 'b'] : List Char) ≠ ['a', '/', 'g', 'e', 't', 'b'] := by
  refine ⟨by decide, by decide, by decide⟩

/-- Claim C9 (amended): both handlers look up exactly the identifier
obtained by deleting every occurrence of `/get` from the path and then
one leading `/`; in particular, for `/get/{id}` where `/{id}` contains no
further `/get` substring, the id passes through unchanged with no other
validation. -/
theorem c9_resource_id_extraction :
    (∀ st blob path hdr,
      (handle_get st blob path hdr).2.head? =
        some (Event.dbLookupId (extract_resource_id path))) ∧
    (∀ st path hdr,
      (handle_head st path hdr).2.head? =
        some (Event.dbLookupId (extract_resource_id path))) ∧
    (∀ id0 : List Char, containsGet ('/' :: id0) = false →
      extract_resource_id ('/' :: 'g' :: 'e' :: 't' :: '/' :: id0) = id0) := by
  refine ⟨?_, ?_, ?_⟩
  · intro st blob path hdr
    cases hlook : get_resource_by_id st.db (extract_resource_id path) <;>
      simp [handle_get, hlook]
  · intro st path hdr
    cases hlook : get_resource_by_id st.db (extract_resource_id path) <;>
      simp [handle_head, hlook]
  · intro id0 h0
    show extract_resource_id ('/' :: 'g' :: 'e' :: 't' :: ('/' :: id0)) = id0
    unfold extract_resource_id
    rw [show removeGet ('/' :: 'g' :: 'e' :: 't' :: ('/' :: id0)) = removeGet ('/' :: id0)
      from rfl]
    rw [removeGet_eq_self ('/' :: id0) h0]
    rfl

/-- Witness for C9 (amended) on the path `/get/abc`. -/
theorem c9_resource_id_extraction_witness :
    containsGet ('/' :: ['a', 'b', 'c']) = false ∧
    extract_resource_id ('/' :: 'g' :: 'e' :: 't' :: '/' :: ['a', 'b', 'c']) = ['a', 'b', 'c'] :=
  ⟨by decide, c9_resource_id_extraction.2.2 ['a', 'b', 'c'] (by decide)⟩

/-- Claim C2: the HEAD handler's `(effectiveStart, effectiveEnd,
contentLength)` triple is computed purely from the resource's stored size
(u64 arithmetic) and agrees with the spec's clamping table on every
`(start, end, size)` combination, and HEAD never performs a blob-store
call. -/
theorem c2_head_clamping_table :
    (∀ st path hdr, ((handle_head st path hdr).2.all fun ev => !isBlobEvent ev) = true) ∧
    (∀ (s e : Option Nat) (S : Nat), head_clamp s e S = head_clamp_table s e S) := by
  constructor
  · intro st path hdr
    cases hlook : get_resource_by_id st.db (extract_resource_id path) <;>
      simp [handle_head, hlook, isBlobEvent]
  · intro s e S
    rcases s with _ | a <;> rcases e with _ | b <;>
      simp only [head_clamp, head_clamp_table] <;>
      split_ifs <;> first | rfl | omega

/-- Claim C5: whenever the resource exists and at least one range bound
parses, GET answers 206 and the total after the `/` of the emitted
`content-range` triple is the resource's stored size, whatever byte slice
the blob store returned. -/
theorem c5_get_content_range_total (st : SysState)
    (blob : List Char → List Char → Option Nat → Option Nat → List Nat)
    (path : List Char) (hdr : Option (List Char)) (r : Resource)
    (hlook : get_resource_by_id st.db (extract_resource_id path) = some r)
    (hsome : ((parse_range hdr).1.isSome || (parse_range hdr).2.isSome) = true) :
    (handle_get st blob path hdr).1.status = 206 ∧
    ∃ a b, (handle_get st blob path hdr).1.contentRange = some (a, b, r.resource_size) := by
  constructor
  · simp [handle_get, hlook, hsome]
  · simp [handle_get, hlook, hsome]

/-- Witness for C5: a 4-byte blob slice for a resource whose recorded
size is 100 still advertises total 100. -/
theorem c5_get_content_range_total_witness :
    get_resource_by_id [Resource.mk ['a'] ['B'] 0 ['h'] 100]
      (extract_resource_id ['/', 'g', 'e', 't', '/', 'a']) =
      some (Resource.mk ['a'] ['B'] 0 ['h'] 100) ∧
    ((parse_range (some ['b', 'y', 't', 'e', 's', '=', '1', '0', '-', '2', '0'])).1.isSome ||
      (parse_range (some ['b', 'y', 't', 'e', 's', '=', '1', '0', '-', '2', '0'])).2.isSome) =
      true ∧
    (handle_get
        { db := [Resource.mk ['a'] ['B'] 0 ['h'] 100],
          gen := { counter := 0, id_list := [], step := 10 }, blobs := [] }
        (fun _ _ _ _ => [7, 7, 7, 7]) ['/', 'g', 'e', 't', '/', 'a']
        (some ['b', 'y', 't', 'e', 's', '=', '1', '0', '-', '2', '0'])).1.status = 206 ∧
    ∃ a b,
      (handle_get
          { db := [Resource.mk ['a'] ['B'] 0 ['h'] 100],
            gen := { counter := 0, id_list := [], step := 10 }, blobs := [] }
          (fun _ _ _ _ => [7, 7, 7, 7]) ['/', 'g', 'e', 't', '/', 'a']
          (some ['b', 'y', 't', 'e', 's', '=', '1', '0', '-', '2', '0'])).1.contentRange =
        some (a, b, (Resource.mk ['a'] ['B'] 0 ['h'] 100).resource_size) :=
  ⟨by decide, by decide,
   (c5_get_content_range_total
      { db := [Resource.mk ['a'] ['B'] 0 ['h'] 100],
        gen := { counter := 0, id_list := [], step := 10 }, blobs := [] }
      (fun _ _ _ _ => [7, 7, 7, 7]) ['/', 'g', 'e', 't', '/', 'a']
      (some ['b', 'y', 't', 'e', 's', '=', '1', '0', '-', '2', '0'])
      (Resource.mk ['a'] ['B'] 0 ['h'] 100) (by decide) (by decide)).1,
   (c5_get_content_range_total
      { db := [Resource.mk ['a'] ['B'] 0 ['h'] 100],
        gen := { counter := 0, id_list := [], step := 10 }, blobs := [] }
      (fun _ _ _ _ => [7, 7, 7, 7]) ['/', 'g', 'e', 't', '/', 'a']
      (some ['b', 'y', 't', 'e', 's', '=', '1', '0', '-', '2', '0'])
      (Resource.mk ['a'] ['B'] 0 ['h'] 100) (by decide) (by decide)).2⟩

/-- Claim C6 evaluated on the code: for `bytes=10-` on a resource whose
recorded size is 100, the emitted `content-range` end is
`returnedLength - start - 1`, so it is 79 for a 90-byte slice and 39 for
a 50-byte slice — it tracks the fetched slice's length, not the stored
size (which would give end 99). -/
theorem c6_get_end_tracks_slice_length :
    (handle_get
        { db := [Resource.mk ['a'] ['B'] 0 ['h'] 100],
          gen := { counter := 0, id_list := [], step := 10 }, blobs := [] }
        (fun _ _ _ _ => List.replicate 90 7) ['/', 'g', 'e', 't', '/', 'a']
        (some ['b', 'y', 't', 'e', 's', '=', '1', '0', '-'])).1.contentRange =
      some (10, 79, 100) ∧
    (handle_get
        { db := [Resource.mk ['a'] ['B'] 0 ['h'] 100],
          gen := { counter := 0, id_list := [], step := 10 }, blobs := [] }
        (fun _ _ _ _ => List.replicate 50 7) ['/', 'g', 'e', 't', '/', 'a']
        (some ['b', 'y', 't', 'e', 's', '=', '1', '0', '-'])).1.contentRange =
      some (10, 39, 100) := by
  refine ⟨by decide, by decide⟩

/-- Counterexample to C10 as stated: for `bytes=5-2` on a resource of
size 10, the branch for both bounds within the size computes
`end - start + 1 = 2 - 5 + 1` on u64, which underflows and wraps to
`2 ^ 64 - 2`. -/
theorem c10_counterexample :
    head_clamp_underflows (some 5) (some 2) 10 = true ∧
    (head_clamp (some 5) (some 2) 10).2.2 = 18446744073709551614 := by
  refine ⟨by decide, by decide⟩

/-- Claim C10 (amended): the HEAD clamp's subtractions underflow exactly
when both bounds are present with `end < start ≤ S` and `end ≤ S` (where
`end - start + 1` wraps modulo `2 ^ 64`); every other branch's
subtraction never underflows. -/
theorem c10_head_clamp_underflow_characterization (s e : Option Nat) (S : Nat) :
    head_clamp_underflows s e S = true ↔
      ∃ a b, s = some a ∧ e = some b ∧ a ≤ S ∧ b ≤ S ∧ b < a := by
  rcases s with _ | a <;> rcases e with _ | b
  · simp [head_clamp_underflows]
  · simp [head_clamp_underflows]
  · simp only [head_clamp_underflows]
    split_ifs with h1 <;> simp_all
  · simp only [head_clamp_underflows]
    constructor
    · intro h
      split_ifs at h with h1 h2
      · exact ⟨a, b, rfl, rfl, h1.1, h1.2, of_decide_eq_true h⟩
      · exact absurd (of_decide_eq_true h) (by omega)
    · rintro ⟨a', b', ha', hb', h1, h2, h3⟩
      injection ha' with ha
      injection hb' with hb
      subst ha
      subst hb
      rw [if_pos ⟨h1, h2⟩]
      exact decide_eq_true h3
